import Mathlib

/-!
Verification development for the ABTGS transcript client.

The definitions below are a shallow embedding of the TypeScript sources:
the speaker-identity data model and the swap handler of
`VerificationDashboard`, the adapter `getVerificationData` and the export
body builder `confirmMapping` of `services/api`, the abbreviation
resolution and line rendering of `TranscriptPreview`, the single-job
`pollStatus` loop and the batch polling effect of `BatchProgress`.
JavaScript numbers are embedded as rationals, `Math.round` as
floor-of-plus-half, string truthiness and the `||` fallback operator
explicitly.  The SMPTE timecode assembler lives in the Python backend
(`main.py`), which is not part of the frontend sources; it is modelled
from the specification and marked as such.
-/

namespace ABTGS

/-- A pre-registered human identity (`Candidate` in `types.ts`). -/
structure Candidate where
  id : String
  name : String
  abbr : String
deriving DecidableEq, Repr, Inhabited

/-- A detected speaker row (`SpeakerInfo` in `types.ts`).  Optional string
fields model `string | null | undefined`; durations are rationals since
JavaScript numbers may be fractional. -/
structure SpeakerInfo where
  tag_id : String
  candidate_id : Option String
  custom_name : Option String
  custom_abbr : Option String
  total_duration_ms : ℚ
  percentage : ℤ
  is_tech : Bool
deriving DecidableEq, Repr, Inhabited

/-- A preview transcript line (`TranscriptSegment` in `types.ts`). -/
structure TranscriptSegment where
  timecode : String
  tag_id : String
  text : String
deriving DecidableEq, Repr, Inhabited

/-- JavaScript truthiness of a `string | null | undefined` value:
`null`, `undefined` and the empty string are falsy. -/
def jsTruthy : Option String → Bool
  | none => false
  | some s => s ≠ ""

/-- JavaScript `x || d` on a `string | null | undefined` left operand:
falls back to `d` when `x` is `null`, `undefined` or empty. -/
def jsOrString : Option String → String → String
  | none, d => d
  | some s, d => if s = "" then d else s

/-- `Array.prototype.findIndex`, with `Option` in place of `-1`. -/
def findIndex (p : α → Bool) : List α → Option Nat
  | [] => none
  | a :: l => if p a then some 0 else (findIndex p l).map (· + 1)

/-- `speakers.findIndex(s => s.tag_id === tagId)` from `handleSwap`. -/
def findSpeakerIdx (tagId : String) (speakers : List SpeakerInfo) : Option Nat :=
  findIndex (fun s => s.tag_id == tagId) speakers

/-- Replace the three binding-payload fields of a speaker, keeping the rest. -/
def withBinding (s : SpeakerInfo) (cand name abbr : Option String) : SpeakerInfo :=
  { s with candidate_id := cand, custom_name := name, custom_abbr := abbr }

/-- The binding payload of a speaker: the three fields `handleSwap` exchanges. -/
def bindingOf (s : SpeakerInfo) : Option String × Option String × Option String :=
  (s.candidate_id, s.custom_name, s.custom_abbr)

/-- `handleSwap` from `VerificationDashboard`: looks up both tags, silently
returns the unchanged list if either is absent, otherwise exchanges the
`candidate_id`, `custom_name` and `custom_abbr` fields of the two rows via a
temporary, leaving every other field in place. -/
def handleSwap (tagId1 tagId2 : String) (speakers : List SpeakerInfo) : List SpeakerInfo :=
  match findSpeakerIdx tagId1 speakers, findSpeakerIdx tagId2 speakers with
  | some i, some j =>
      let s1 := speakers.getD i default
      let s2 := speakers.getD j default
      (speakers.set i (withBinding s1 s2.candidate_id s2.custom_name s2.custom_abbr)).set j
        (withBinding s2 s1.candidate_id s1.custom_name s1.custom_abbr)
  | _, _ => speakers

/-- The error vocabulary the specification assigns to `swap`. -/
inductive SwapError where
  | unknownTag
deriving DecidableEq, Repr

/-- The observable outcome of the `handleSwap` event handler, with an
explicit error channel: the TypeScript handler never throws, so the
embedding always returns `Except.ok` with the (possibly unchanged) state. -/
def handleSwapE (tagId1 tagId2 : String) (speakers : List SpeakerInfo) :
    Except SwapError (List SpeakerInfo) :=
  Except.ok (handleSwap tagId1 tagId2 speakers)

/-- The dashboard state that `VerificationDashboard` keeps: the speaker rows
and the editable transcript segments. -/
structure DashboardState where
  speakers : List SpeakerInfo
  segments : List TranscriptSegment
deriving DecidableEq, Repr

/-- `handleSwap` as a transition on the whole dashboard state: it only calls
`setSpeakers`, never `setSegments`. -/
def handleSwapState (tagId1 tagId2 : String) (st : DashboardState) : DashboardState :=
  { st with speakers := handleSwap tagId1 tagId2 st.speakers }

/-! Helper lemmas about `List.set`, `List.getD` and `findIndex`. -/

theorem getD_set_self {α : Type} (l : List α) (i : Nat) (a d : α) (h : i < l.length) :
    (l.set i a).getD i d = a := by
  simp [List.getD_eq_getElem?_getD, List.getElem?_set, h]

theorem getD_set_ne {α : Type} (l : List α) (i j : Nat) (a d : α) (h : i ≠ j) :
    (l.set i a).getD j d = l.getD j d := by
  simp [List.getD_eq_getElem?_getD, List.getElem?_set, h]

theorem set_getD_eq_self {α : Type} (l : List α) (i : Nat) (d : α) (h : i < l.length) :
    l.set i (l.getD i d) = l := by
  apply List.ext_getElem?
  intro k
  rw [List.getElem?_set]
  split
  · next heq =>
    subst heq
    simp [List.getD_eq_getElem?_getD, h, List.getElem?_eq_getElem h]
  · rfl

theorem findIndex_lt_length {α : Type} {p : α → Bool} :
    ∀ {l : List α} {i : Nat}, findIndex p l = some i → i < l.length := by
  intro l
  induction l with
  | nil => intro i h; simp [findIndex] at h
  | cons a l ih =>
    intro i h
    by_cases hpa : p a
    · simp [findIndex, hpa] at h
      simp only [List.length_cons]
      omega
    · simp [findIndex, hpa] at h
      obtain ⟨i', hi', rfl⟩ := h
      have := ih hi'
      simp only [List.length_cons]
      omega

theorem findIndex_getD {α : Type} {p : α → Bool} (d : α) :
    ∀ {l : List α} {i : Nat}, findIndex p l = some i → p (l.getD i d) = true := by
  intro l
  induction l with
  | nil => intro i h; simp [findIndex] at h
  | cons a l ih =>
    intro i h
    by_cases hpa : p a
    · simp [findIndex, hpa] at h
      subst h
      simpa using hpa
    · simp [findIndex, hpa] at h
      obtain ⟨i', hi', rfl⟩ := h
      simpa using ih hi'

theorem findIndex_congr {α β : Type} (f : α → β) (q : β → Bool) :
    ∀ (l₁ l₂ : List α), l₁.map f = l₂.map f →
      findIndex (fun a => q (f a)) l₁ = findIndex (fun a => q (f a)) l₂ := by
  intro l₁
  induction l₁ with
  | nil =>
    intro l₂ h
    cases l₂ with
    | nil => rfl
    | cons b l₂ => simp at h
  | cons a l₁ ih =>
    intro l₂ h
    cases l₂ with
    | nil => simp at h
    | cons b l₂ =>
      simp only [List.map_cons, List.cons.injEq] at h
      simp only [findIndex, h.1, ih l₂ h.2]

/-! Frame facts about `withBinding`. -/

theorem withBinding_tag_id (s : SpeakerInfo) (c n a : Option String) :
    (withBinding s c n a).tag_id = s.tag_id := rfl

theorem withBinding_self (s : SpeakerInfo) :
    withBinding s s.candidate_id s.custom_name s.custom_abbr = s := rfl

theorem withBinding_withBinding (s : SpeakerInfo) (c n a c' n' a' : Option String) :
    withBinding (withBinding s c n a) c' n' a' = withBinding s c' n' a' := rfl

theorem bindingOf_withBinding (s : SpeakerInfo) (c n a : Option String) :
    bindingOf (withBinding s c n a) = (c, n, a) := rfl

/-- The swap never changes the sequence of tag identifiers. -/
theorem map_tagId_handleSwap (t1 t2 : String) (l : List SpeakerInfo) :
    (handleSwap t1 t2 l).map (·.tag_id) = l.map (·.tag_id) := by
  unfold handleSwap
  cases h1 : findSpeakerIdx t1 l with
  | none => rfl
  | some i =>
    cases h2 : findSpeakerIdx t2 l with
    | none => rfl
    | some j =>
      have hi : i < l.length := findIndex_lt_length h1
      have hj : j < l.length := findIndex_lt_length h2
      simp only [List.map_set, withBinding_tag_id]
      have egi : (l.getD i default).tag_id =
          (l.map (·.tag_id)).getD i ((default : SpeakerInfo).tag_id) :=
        (List.getD_map l default (·.tag_id)).symm
      have egj : (l.getD j default).tag_id =
          (l.map (·.tag_id)).getD j ((default : SpeakerInfo).tag_id) :=
        (List.getD_map l default (·.tag_id)).symm
      rw [egi, egj, set_getD_eq_self _ i _ (by simpa using hi),
        set_getD_eq_self _ j _ (by simpa using hj)]

/-- Tag lookup is unchanged by a swap. -/
theorem findSpeakerIdx_handleSwap (t t1 t2 : String) (l : List SpeakerInfo) :
    findSpeakerIdx t (handleSwap t1 t2 l) = findSpeakerIdx t l :=
  findIndex_congr (f := SpeakerInfo.tag_id) (q := fun x => x == t) _ _
    (map_tagId_handleSwap t1 t2 l)

/-- On two present tags, `handleSwap` is the two-point set that exchanges
the binding payloads. -/
theorem handleSwap_eq_of_found {t1 t2 : String} {l : List SpeakerInfo} {i j : Nat}
    (h1 : findSpeakerIdx t1 l = some i) (h2 : findSpeakerIdx t2 l = some j) :
    handleSwap t1 t2 l =
      (l.set i (withBinding (l.getD i default) (l.getD j default).candidate_id
          (l.getD j default).custom_name (l.getD j default).custom_abbr)).set j
        (withBinding (l.getD j default) (l.getD i default).candidate_id
          (l.getD i default).custom_name (l.getD i default).custom_abbr) := by
  unfold handleSwap
  rw [h1, h2]

theorem withBinding_candidate_id (s : SpeakerInfo) (c n a : Option String) :
    (withBinding s c n a).candidate_id = c := rfl

theorem withBinding_custom_name (s : SpeakerInfo) (c n a : Option String) :
    (withBinding s c n a).custom_name = n := rfl

theorem withBinding_custom_abbr (s : SpeakerInfo) (c n a : Option String) :
    (withBinding s c n a).custom_abbr = a := rfl

theorem withBinding_total_duration_ms (s : SpeakerInfo) (c n a : Option String) :
    (withBinding s c n a).total_duration_ms = s.total_duration_ms := rfl

theorem withBinding_percentage (s : SpeakerInfo) (c n a : Option String) :
    (withBinding s c n a).percentage = s.percentage := rfl

theorem withBinding_is_tech (s : SpeakerInfo) (c n a : Option String) :
    (withBinding s c n a).is_tech = s.is_tech := rfl

/-- C1: swap is involutive.  For every pair of tags both present in the
speakers list, applying `handleSwap` twice with the same tags restores every
speaker row — in particular every binding `(candidate_id, custom_name,
custom_abbr)` — exactly to its original value. -/
theorem handleSwap_involutive (speakers : List SpeakerInfo) (tagId1 tagId2 : String)
    (h1 : (findSpeakerIdx tagId1 speakers).isSome = true)
    (h2 : (findSpeakerIdx tagId2 speakers).isSome = true) :
    handleSwap tagId1 tagId2 (handleSwap tagId1 tagId2 speakers) = speakers := by
  obtain ⟨i, hi⟩ := Option.isSome_iff_exists.mp h1
  obtain ⟨j, hj⟩ := Option.isSome_iff_exists.mp h2
  have hilen : i < speakers.length := findIndex_lt_length hi
  have hjlen : j < speakers.length := findIndex_lt_length hj
  by_cases hij : i = j
  · subst hij
    have hfix : handleSwap tagId1 tagId2 speakers = speakers := by
      rw [handleSwap_eq_of_found hi hj, withBinding_self, List.set_set,
        set_getD_eq_self _ i _ hilen]
    rw [hfix, hfix]
  · have hi' : findSpeakerIdx tagId1 (handleSwap tagId1 tagId2 speakers) = some i := by
      rw [findSpeakerIdx_handleSwap, hi]
    have hj' : findSpeakerIdx tagId2 (handleSwap tagId1 tagId2 speakers) = some j := by
      rw [findSpeakerIdx_handleSwap, hj]
    rw [handleSwap_eq_of_found hi' hj']
    have egi : (handleSwap tagId1 tagId2 speakers).getD i default =
        withBinding (speakers.getD i default) (speakers.getD j default).candidate_id
          (speakers.getD j default).custom_name (speakers.getD j default).custom_abbr := by
      rw [handleSwap_eq_of_found hi hj, getD_set_ne _ j i _ _ (Ne.symm hij),
        getD_set_self _ i _ _ hilen]
    have egj : (handleSwap tagId1 tagId2 speakers).getD j default =
        withBinding (speakers.getD j default) (speakers.getD i default).candidate_id
          (speakers.getD i default).custom_name (speakers.getD i default).custom_abbr := by
      rw [handleSwap_eq_of_found hi hj,
        getD_set_self _ j _ _ (by simpa using hjlen)]
    rw [egi, egj]
    simp only [withBinding_candidate_id, withBinding_custom_name, withBinding_custom_abbr,
      withBinding_withBinding, withBinding_self]
    rw [handleSwap_eq_of_found hi hj]
    rw [List.set_comm _ _ _ (Ne.symm hij), List.set_set, List.set_set,
      set_getD_eq_self _ i _ hilen, set_getD_eq_self _ j _ hjlen]

/-- Sample dashboard data used by concrete witnesses, shaped like the mock
project data of the repository. -/
def exSpeakers : List SpeakerInfo :=
  [⟨"1", some "cand_1", some "Довлатова Алла", some "АД", 2160000, 60, false⟩,
   ⟨"2", some "cand_2", some "Павел", some "П", 1080000, 30, false⟩,
   ⟨"4", none, some "ГЗК", some "ГЗК", 180000, 5, true⟩]

/-- Witness for C1 at a concrete state: tags "1" and "2" are both present
and a double swap restores the list. -/
theorem handleSwap_involutive_witness :
    (findSpeakerIdx "1" exSpeakers).isSome = true ∧
    (findSpeakerIdx "2" exSpeakers).isSome = true ∧
    handleSwap "1" "2" (handleSwap "1" "2" exSpeakers) = exSpeakers :=
  ⟨by decide, by decide,
    handleSwap_involutive exSpeakers "1" "2" (by decide) (by decide)⟩

/-- C5 (counterexample): at a concrete state whose speakers have tags
"1", "2" and "4", swapping with the absent tag "404" does not fail with an
`UnknownTag` error; the handler returns normally with the state unchanged. -/
theorem handleSwap_unknownTag_counterexample :
    handleSwapE "1" "404" exSpeakers ≠ Except.error SwapError.unknownTag ∧
    handleSwapE "1" "404" exSpeakers = Except.ok exSpeakers := by
  have h0 : handleSwapE "1" "404" exSpeakers = Except.ok exSpeakers := rfl
  exact ⟨by rw [h0]; exact fun h => Except.noConfusion h, h0⟩

/-- C5 (amended): if either tag is absent from the speakers list, the swap
handler is a silent no-op — it returns the unchanged state through its normal
(non-error) channel, and no `UnknownTag` failure exists in the code. -/
theorem handleSwap_unknownTag_silent (speakers : List SpeakerInfo) (tagId1 tagId2 : String)
    (h : findSpeakerIdx tagId1 speakers = none ∨ findSpeakerIdx tagId2 speakers = none) :
    handleSwapE tagId1 tagId2 speakers = Except.ok speakers := by
  have hswap : handleSwap tagId1 tagId2 speakers = speakers := by
    unfold handleSwap
    split
    · next i j hfi hfj => rcases h with h | h <;> simp_all
    · rfl
  unfold handleSwapE
  rw [hswap]

/-- Witness for the amended C5 at a concrete state: tag "404" is absent and
the swap returns the state unchanged. -/
theorem handleSwap_unknownTag_silent_witness :
    (findSpeakerIdx "1" exSpeakers = none ∨ findSpeakerIdx "404" exSpeakers = none) ∧
    handleSwapE "1" "404" exSpeakers = Except.ok exSpeakers :=
  ⟨Or.inr (by decide),
    handleSwap_unknownTag_silent exSpeakers "1" "404" (Or.inr (by decide))⟩

/-- C6: for a pair of present tags, the swap exchanges exactly the binding
payloads of the two rows and nothing else: the transcript segments, the list
length, and every row's `tag_id`, `total_duration_ms`, `percentage` and
`is_tech` are unchanged. -/
theorem handleSwap_frame (st : DashboardState) (tagId1 tagId2 : String) (i j : Nat)
    (h1 : findSpeakerIdx tagId1 st.speakers = some i)
    (h2 : findSpeakerIdx tagId2 st.speakers = some j) :
    (handleSwapState tagId1 tagId2 st).segments = st.segments ∧
    (handleSwapState tagId1 tagId2 st).speakers.length = st.speakers.length ∧
    (∀ (k : Nat),
      ((handleSwapState tagId1 tagId2 st).speakers.getD k default).tag_id =
          (st.speakers.getD k default).tag_id ∧
      ((handleSwapState tagId1 tagId2 st).speakers.getD k default).total_duration_ms =
          (st.speakers.getD k default).total_duration_ms ∧
      ((handleSwapState tagId1 tagId2 st).speakers.getD k default).percentage =
          (st.speakers.getD k default).percentage ∧
      ((handleSwapState tagId1 tagId2 st).speakers.getD k default).is_tech =
          (st.speakers.getD k default).is_tech) ∧
    bindingOf ((handleSwapState tagId1 tagId2 st).speakers.getD i default) =
        bindingOf (st.speakers.getD j default) ∧
    bindingOf ((handleSwapState tagId1 tagId2 st).speakers.getD j default) =
        bindingOf (st.speakers.getD i default) := by
  have hilen : i < st.speakers.length := findIndex_lt_length h1
  have hjlen : j < st.speakers.length := findIndex_lt_length h2
  have hsw := handleSwap_eq_of_found h1 h2
  have hspk : (handleSwapState tagId1 tagId2 st).speakers =
      handleSwap tagId1 tagId2 st.speakers := rfl
  refine ⟨rfl, ?_, ?_, ?_, ?_⟩
  · rw [hspk, hsw]; simp [List.length_set]
  · intro k
    rw [hspk, hsw]
    by_cases hkj : k = j
    · subst hkj
      rw [getD_set_self _ k _ _ (by simpa using hjlen)]
      exact ⟨rfl, rfl, rfl, rfl⟩
    · rw [getD_set_ne _ j k _ _ (fun h => hkj h.symm)]
      by_cases hki : k = i
      · subst hki
        rw [getD_set_self _ k _ _ hilen]
        exact ⟨rfl, rfl, rfl, rfl⟩
      · rw [getD_set_ne _ i k _ _ (fun h => hki h.symm)]
        exact ⟨rfl, rfl, rfl, rfl⟩
  · rw [hspk, hsw]
    by_cases hij : i = j
    · subst hij
      rw [getD_set_self _ i _ _ (by simpa using hilen)]
      rfl
    · rw [getD_set_ne _ j i _ _ (Ne.symm hij), getD_set_self _ i _ _ hilen]
      rfl
  · rw [hspk, hsw, getD_set_self _ j _ _ (by simpa using hjlen)]
    rfl

/-- Sample transcript segments for concrete witnesses. -/
def exSegments : List TranscriptSegment :=
  [⟨"15:40:41:00", "4", "(Технические моменты)"⟩,
   ⟨"15:40:58:00", "1", "Сегодня, когда вы будете пить чай или кофе."⟩]

/-- Witness for C6 at a concrete dashboard state. -/
theorem handleSwap_frame_witness :
    findSpeakerIdx "1" (DashboardState.mk exSpeakers exSegments).speakers = some 0 ∧
    findSpeakerIdx "2" (DashboardState.mk exSpeakers exSegments).speakers = some 1 ∧
    ((handleSwapState "1" "2" (DashboardState.mk exSpeakers exSegments)).segments =
        (DashboardState.mk exSpeakers exSegments).segments ∧
      (handleSwapState "1" "2" (DashboardState.mk exSpeakers exSegments)).speakers.length =
        (DashboardState.mk exSpeakers exSegments).speakers.length ∧
      (∀ (k : Nat),
        ((handleSwapState "1" "2" (DashboardState.mk exSpeakers exSegments)).speakers.getD k default).tag_id =
            ((DashboardState.mk exSpeakers exSegments).speakers.getD k default).tag_id ∧
        ((handleSwapState "1" "2" (DashboardState.mk exSpeakers exSegments)).speakers.getD k default).total_duration_ms =
            ((DashboardState.mk exSpeakers exSegments).speakers.getD k default).total_duration_ms ∧
        ((handleSwapState "1" "2" (DashboardState.mk exSpeakers exSegments)).speakers.getD k default).percentage =
            ((DashboardState.mk exSpeakers exSegments).speakers.getD k default).percentage ∧
        ((handleSwapState "1" "2" (DashboardState.mk exSpeakers exSegments)).speakers.getD k default).is_tech =
            ((DashboardState.mk exSpeakers exSegments).speakers.getD k default).is_tech) ∧
      bindingOf ((handleSwapState "1" "2" (DashboardState.mk exSpeakers exSegments)).speakers.getD 0 default) =
          bindingOf ((DashboardState.mk exSpeakers exSegments).speakers.getD 1 default) ∧
      bindingOf ((handleSwapState "1" "2" (DashboardState.mk exSpeakers exSegments)).speakers.getD 1 default) =
          bindingOf ((DashboardState.mk exSpeakers exSegments).speakers.getD 0 default)) :=
  ⟨by decide, by decide,
    handleSwap_frame (DashboardState.mk exSpeakers exSegments) "1" "2" 0 1
      (by decide) (by decide)⟩

/-! The adapter `getVerificationData` of `services/api`: initial binding
computation from the backend speakers dictionary. -/

/-- One entry of the backend speakers dictionary, `{duration_sec,
suggested_name}` keyed by tag.  Durations are rationals because JavaScript
numbers may be fractional. -/
structure RawSpeaker where
  tag_id : String
  duration_sec : ℚ
  suggested_name : String
deriving DecidableEq, Repr, Inhabited

/-- `totalDuration`: the reduce over `duration_sec` in `getVerificationData`. -/
def totalDuration (speakersDict : List RawSpeaker) : ℚ :=
  (speakersDict.map (·.duration_sec)).sum

/-- JavaScript `Math.round`: half-values round toward positive infinity. -/
def jsRound (q : ℚ) : ℤ := ⌊q + 1 / 2⌋

/-- One element of the `detected_speakers` array built by
`getVerificationData`: the tag initially maps to itself as candidate, the
suggested name becomes the custom name, the percentage is the rounded share
guarded by `totalDuration > 0`, and the technical flag is the exact match
against the configured marker. -/
def mkDetectedSpeaker (total : ℚ) (r : RawSpeaker) : SpeakerInfo :=
  { tag_id := r.tag_id
    candidate_id := some r.tag_id
    custom_name := some r.suggested_name
    custom_abbr := none
    total_duration_ms := r.duration_sec * 1000
    percentage := if 0 < total then jsRound (r.duration_sec / total * 100) else 0
    is_tech := r.suggested_name == "АЗК" }

/-- The `detected_speakers` array of `getVerificationData`. -/
def detectedSpeakers (speakersDict : List RawSpeaker) : List SpeakerInfo :=
  speakersDict.map (mkDetectedSpeaker (totalDuration speakersDict))

/-- The `duration_total_ms` field of the adapted `ProjectData`. -/
def durationTotalMs (speakersDict : List RawSpeaker) : ℚ :=
  totalDuration speakersDict * 1000

theorem jsRound_le (q : ℚ) : (jsRound q : ℚ) ≤ q + 1 / 2 := Int.floor_le _

theorem le_jsRound (q : ℚ) : q - 1 / 2 ≤ (jsRound q : ℚ) := by
  have h := Int.lt_floor_add_one (q + 1 / 2)
  have : (jsRound q : ℚ) = (⌊q + 1 / 2⌋ : ℚ) := rfl
  linarith

/-- The rounded shares sum to `100` before rounding. -/
theorem sum_shares (speakersDict : List RawSpeaker)
    (hD : totalDuration speakersDict ≠ 0) :
    (speakersDict.map
      (fun r => r.duration_sec / totalDuration speakersDict * 100)).sum = 100 := by
  have hfun : (fun r : RawSpeaker => r.duration_sec / totalDuration speakersDict * 100) =
      (fun r : RawSpeaker => r.duration_sec * (100 / totalDuration speakersDict)) := by
    funext r
    ring
  rw [hfun, List.sum_map_mul_right]
  rw [show (speakersDict.map (·.duration_sec)).sum = totalDuration speakersDict from rfl]
  field_simp

/-- C3: with a positive recognized total, the per-tag millisecond durations
built by `getVerificationData` sum to the adapted total duration, and the
rounded percentages sum to `100` up to `numTags - 1`. -/
theorem getVerificationData_stats (speakersDict : List RawSpeaker)
    (hpos : 0 < totalDuration speakersDict) :
    ((detectedSpeakers speakersDict).map (·.total_duration_ms)).sum =
        durationTotalMs speakersDict ∧
    |((detectedSpeakers speakersDict).map (·.percentage)).sum - 100| ≤
        (speakersDict.length : ℤ) - 1 := by
  have hD : totalDuration speakersDict ≠ 0 := ne_of_gt hpos
  have hne : speakersDict ≠ [] := by
    intro h
    rw [h] at hpos
    simp [totalDuration] at hpos
  constructor
  · rw [detectedSpeakers, List.map_map]
    have hfun : ((·.total_duration_ms) ∘ mkDetectedSpeaker (totalDuration speakersDict)) =
        (fun r : RawSpeaker => r.duration_sec * 1000) := rfl
    rw [hfun, List.sum_map_mul_right, durationTotalMs]
    rfl
  · set D := totalDuration speakersDict with hDdef
    set n := speakersDict.length with hn
    have hfun : ((·.percentage) ∘ mkDetectedSpeaker D) =
        (fun r : RawSpeaker => jsRound (r.duration_sec / D * 100)) := by
      funext r
      simp [mkDetectedSpeaker, hpos]
    set S : ℤ := ((detectedSpeakers speakersDict).map (·.percentage)).sum with hS
    have hScast : (S : ℚ) =
        (speakersDict.map (fun r => (jsRound (r.duration_sec / D * 100) : ℚ))).sum := by
      rw [hS, detectedSpeakers, List.map_map, hfun, Int.cast_list_sum, List.map_map]
      rfl
    have hup : (S : ℚ) ≤ 100 + (n : ℚ) / 2 := by
      rw [hScast]
      have h1 : (speakersDict.map (fun r => (jsRound (r.duration_sec / D * 100) : ℚ))).sum ≤
          (speakersDict.map (fun r => r.duration_sec / D * 100 + 1 / 2)).sum :=
        List.sum_le_sum (fun r _ => jsRound_le _)
      have h2 : (speakersDict.map (fun r => r.duration_sec / D * 100 + 1 / 2)).sum =
          100 + (n : ℚ) / 2 := by
        rw [List.sum_map_add, sum_shares speakersDict hD]
        rw [show (fun _ : RawSpeaker => (1 : ℚ) / 2) = Function.const RawSpeaker ((1 : ℚ) / 2)
            from rfl, List.map_const, List.sum_replicate, nsmul_eq_mul]
        rw [hn]
        ring
      linarith
    have hlo : 100 - (n : ℚ) / 2 ≤ (S : ℚ) := by
      rw [hScast]
      have h1 : (speakersDict.map (fun r => r.duration_sec / D * 100 - 1 / 2)).sum ≤
          (speakersDict.map (fun r => (jsRound (r.duration_sec / D * 100) : ℚ))).sum :=
        List.sum_le_sum (fun r _ => le_jsRound _)
      have h2 : (speakersDict.map (fun r => r.duration_sec / D * 100 - 1 / 2)).sum =
          100 - (n : ℚ) / 2 := by
        have hsplit : (fun r : RawSpeaker => r.duration_sec / D * 100 - 1 / 2) =
            (fun r : RawSpeaker => r.duration_sec / D * 100 + (-1 / 2)) := by
          funext r
          ring
        rw [hsplit, List.sum_map_add, sum_shares speakersDict hD]
        rw [show (fun _ : RawSpeaker => (-1 : ℚ) / 2) = Function.const RawSpeaker ((-1 : ℚ) / 2)
            from rfl, List.map_const, List.sum_replicate, nsmul_eq_mul]
        rw [hn]
        ring
      linarith
    have hn1 : 1 ≤ n := List.length_pos.mpr hne
    have hnq : (1 : ℚ) ≤ (n : ℚ) := by exact_mod_cast hn1
    have hupZ : S < 100 + (n : ℤ) := by
      have : (S : ℚ) < 100 + (n : ℚ) := by linarith
      exact_mod_cast this
    have hloZ : 100 - (n : ℤ) < S := by
      have : 100 - (n : ℚ) < (S : ℚ) := by linarith
      exact_mod_cast this
    rw [abs_le]
    omega

/-- C10: when the speakers dictionary has zero total duration, the guard in
`getVerificationData` yields percentage `0` for every detected speaker
instead of dividing by zero. -/
theorem getVerificationData_zero_total (speakersDict : List RawSpeaker)
    (h : totalDuration speakersDict = 0) :
    ∀ s ∈ detectedSpeakers speakersDict, s.percentage = 0 := by
  intro s hs
  rw [detectedSpeakers] at hs
  obtain ⟨r, _, rfl⟩ := List.mem_map.mp hs
  simp [mkDetectedSpeaker, h]

/-- Sample backend speakers dictionary for concrete witnesses. -/
def exDict : List RawSpeaker :=
  [⟨"1", 1, "Довлатова Алла"⟩, ⟨"2", 2, "Павел"⟩]

/-- Witness for C3 at a concrete dictionary with total duration three
seconds: shares 33 and 67 sum to 100. -/
theorem getVerificationData_stats_witness :
    0 < totalDuration exDict ∧
    (((detectedSpeakers exDict).map (·.total_duration_ms)).sum = durationTotalMs exDict ∧
      |((detectedSpeakers exDict).map (·.percentage)).sum - 100| ≤
        (exDict.length : ℤ) - 1) :=
  ⟨by norm_num [totalDuration, exDict],
    getVerificationData_stats exDict (by norm_num [totalDuration, exDict])⟩

/-- Sample dictionary whose durations are all zero. -/
def exDictZero : List RawSpeaker := [⟨"1", 0, "ГЗК"⟩, ⟨"2", 0, "АЗК"⟩]

/-- Witness for C10 at a concrete all-zero dictionary. -/
theorem getVerificationData_zero_total_witness :
    totalDuration exDictZero = 0 ∧
    ∀ s ∈ detectedSpeakers exDictZero, s.percentage = 0 :=
  ⟨by norm_num [totalDuration, exDictZero],
    getVerificationData_zero_total exDictZero (by norm_num [totalDuration, exDictZero])⟩

/-! Export path: `handleDownload` of `VerificationDashboard` builds the
final `{tag -> {name, abbreviation}}` mapping, and `confirmMapping` of
`services/api` turns it into the request body. -/

/-- The value stored per tag in the `MappingDecision` object. -/
structure Binding where
  name : String
  abbreviation : String
deriving DecidableEq, Repr, Inhabited

/-- The resolved display name sent at export for a speaker row: candidate
name when a candidate is bound, otherwise the custom name, with the
JavaScript fallback to a placeholder. -/
def resolveExportName (candidates : List Candidate) (s : SpeakerInfo) : String :=
  jsOrString
    (if jsTruthy s.candidate_id then
      (candidates.find? (fun c => some c.id == s.candidate_id)).map (·.name)
    else s.custom_name)
    ("Спикер " ++ s.tag_id)

/-- The resolved abbreviation sent at export for a speaker row. -/
def resolveExportAbbr (candidates : List Candidate) (s : SpeakerInfo) : String :=
  jsOrString
    (if jsTruthy s.candidate_id then
      (candidates.find? (fun c => some c.id == s.candidate_id)).map (·.abbr)
    else s.custom_abbr)
    ""

/-- Whether a JavaScript object modelled as an ordered association list
already has a key. -/
def hasKey (m : List (String × Binding)) (k : String) : Bool :=
  m.any (fun p => p.1 == k)

/-- `acc[k] = v` on a JavaScript object: overwrite in place when the key
exists, append otherwise (objects keep first-insertion key order). -/
def objInsert (m : List (String × Binding)) (k : String) (v : Binding) :
    List (String × Binding) :=
  if hasKey m k then m.map (fun p => if p.1 == k then (k, v) else p) else m ++ [(k, v)]

/-- The `reduce` in `handleDownload`: one mapping entry per speaker row,
keyed by tag, holding the resolved name and abbreviation. -/
def buildExportMapping (candidates : List Candidate) (speakers : List SpeakerInfo) :
    List (String × Binding) :=
  speakers.foldl
    (fun acc s =>
      objInsert acc s.tag_id ⟨resolveExportName candidates s, resolveExportAbbr candidates s⟩)
    []

/-- One element of the `mappings` array sent to `POST /projects/:id/export`. -/
structure ExportEntry where
  speaker_label : String
  mapped_name : String
  abbreviation : String
deriving DecidableEq, Repr, Inhabited

/-- The `mappingList` adapter inside `confirmMapping`: `Object.keys` order,
one entry per key, carrying all three fields. -/
def mappingList (mapping : List (String × Binding)) : List ExportEntry :=
  mapping.map (fun p => ⟨p.1, p.2.name, p.2.abbreviation⟩)

/-- The JSON body of the export request. -/
structure ExportRequestBody where
  mappings : List ExportEntry
  filename : String
deriving DecidableEq, Repr

/-- The body `confirmMapping` posts. -/
def confirmMappingBody (mapping : List (String × Binding)) : ExportRequestBody :=
  ⟨mappingList mapping, "transcript.docx"⟩

theorem hasKey_append (a b : List (String × Binding)) (k : String) :
    hasKey (a ++ b) k = (hasKey a k || hasKey b k) := by
  simp [hasKey]

/-- With pairwise-distinct tags, the `reduce` of `handleDownload` is a plain
map over the speaker rows. -/
theorem buildExportMapping_eq_map (candidates : List Candidate) :
    ∀ (speakers : List SpeakerInfo) (acc : List (String × Binding)),
      (speakers.map (·.tag_id)).Nodup →
      (∀ s ∈ speakers, hasKey acc s.tag_id = false) →
      speakers.foldl
          (fun a s =>
            objInsert a s.tag_id
              ⟨resolveExportName candidates s, resolveExportAbbr candidates s⟩)
          acc =
        acc ++ speakers.map
          (fun s =>
            (s.tag_id,
              (⟨resolveExportName candidates s, resolveExportAbbr candidates s⟩ : Binding))) := by
  intro speakers
  induction speakers with
  | nil => intro acc _ _; simp
  | cons s rest ih =>
    intro acc hnodup hfresh
    rw [List.map_cons, List.nodup_cons] at hnodup
    have hacc : hasKey acc s.tag_id = false := hfresh s (List.mem_cons_self s rest)
    rw [List.foldl_cons]
    rw [show objInsert acc s.tag_id
          ⟨resolveExportName candidates s, resolveExportAbbr candidates s⟩ =
        acc ++ [(s.tag_id,
          (⟨resolveExportName candidates s, resolveExportAbbr candidates s⟩ : Binding))] by
      rw [objInsert, hacc]
      simp]
    rw [ih _ hnodup.2 ?_]
    · simp
    · intro t ht
      rw [hasKey_append, hfresh t (List.mem_cons_of_mem s ht), Bool.false_or]
      have htag : s.tag_id ≠ t.tag_id := by
        intro h
        exact hnodup.1 (h ▸ List.mem_map_of_mem (·.tag_id) ht)
      simp [hasKey, htag]

/-- C4: for distinct tags, the export request body contains exactly one
entry per tag, in row order, and each entry carries the three fields
`speaker_label`, `mapped_name` and `abbreviation` taken from that tag's
resolved binding; the filename is the fixed `transcript.docx`. -/
theorem confirmMapping_request (candidates : List Candidate) (speakers : List SpeakerInfo)
    (hnodup : (speakers.map (·.tag_id)).Nodup) :
    (confirmMappingBody (buildExportMapping candidates speakers)).mappings =
      speakers.map
        (fun s => ⟨s.tag_id, resolveExportName candidates s, resolveExportAbbr candidates s⟩) ∧
    (confirmMappingBody (buildExportMapping candidates speakers)).mappings.length =
      speakers.length ∧
    (confirmMappingBody (buildExportMapping candidates speakers)).filename =
      "transcript.docx" := by
  have hb : buildExportMapping candidates speakers =
      speakers.map
        (fun s =>
          (s.tag_id,
            (⟨resolveExportName candidates s, resolveExportAbbr candidates s⟩ : Binding))) := by
    rw [buildExportMapping, buildExportMapping_eq_map candidates speakers [] hnodup
      (fun s _ => rfl)]
    rfl
  refine ⟨?_, ?_, rfl⟩
  · show mappingList (buildExportMapping candidates speakers) = _
    rw [hb, mappingList, List.map_map]
    rfl
  · show (mappingList (buildExportMapping candidates speakers)).length = _
    rw [hb, mappingList, List.map_map, List.length_map]

/-- Sample candidate pool for concrete witnesses. -/
def exCandidates : List Candidate :=
  [⟨"cand_1", "Довлатова Алла", "АД"⟩, ⟨"cand_2", "Павел", "П"⟩]

/-- Witness for C4 at the sample dashboard state: three distinct tags give
three export entries with all three fields resolved. -/
theorem confirmMapping_request_witness :
    (exSpeakers.map (·.tag_id)).Nodup ∧
    ((confirmMappingBody (buildExportMapping exCandidates exSpeakers)).mappings =
        exSpeakers.map
          (fun s =>
            ⟨s.tag_id, resolveExportName exCandidates s, resolveExportAbbr exCandidates s⟩) ∧
      (confirmMappingBody (buildExportMapping exCandidates exSpeakers)).mappings.length =
        exSpeakers.length ∧
      (confirmMappingBody (buildExportMapping exCandidates exSpeakers)).filename =
        "transcript.docx") :=
  ⟨by decide, confirmMapping_request exCandidates exSpeakers (by decide)⟩

/-! Transcript rendering: `getSpeakerAbbr` and the per-segment line of
`TranscriptPreview`. -/

/-- `getSpeakerAbbr` from `TranscriptPreview`: look the tag up in the
current speaker rows; fall back to the raw tag when unknown; resolve through
the bound candidate when one is set, with `"UNK"` when the candidate is
missing; otherwise use the custom abbreviation with the `"S" + tag`
fallback. -/
def getSpeakerAbbr (speakers : List SpeakerInfo) (candidates : List Candidate)
    (tagId : String) : String :=
  match speakers.find? (fun s => s.tag_id == tagId) with
  | none => tagId
  | some speaker =>
    if jsTruthy speaker.candidate_id then
      jsOrString ((candidates.find? (fun c => some c.id == speaker.candidate_id)).map (·.abbr))
        "UNK"
    else
      jsOrString speaker.custom_abbr ("S" ++ tagId)

/-- JavaScript `text.startsWith(p)`, embedded over the character lists of
the two strings. -/
def strStartsWith (s p : String) : Bool := p.data.isPrefixOf s.data

/-- A rendered preview line: timecode, optional bold speaker abbreviation,
segment text, and whether the text is shown in italics. -/
structure RenderedLine where
  timecode : String
  speakerAbbr : Option String
  text : String
  italic : Bool
deriving DecidableEq, Repr

/-- The per-segment rendering of `TranscriptPreview`: a text starting with
an opening parenthesis is an italic technical remark without speaker
prefix; any other text is prefixed with the resolved abbreviation. -/
def renderSegment (speakers : List SpeakerInfo) (candidates : List Candidate)
    (seg : TranscriptSegment) : RenderedLine :=
  if strStartsWith seg.text "(" then
    { timecode := seg.timecode, speakerAbbr := none, text := seg.text, italic := true }
  else
    { timecode := seg.timecode
      speakerAbbr := some (getSpeakerAbbr speakers candidates seg.tag_id)
      text := seg.text
      italic := false }

/-- The flat text of a rendered line. -/
def renderLineText (ln : RenderedLine) : String :=
  match ln.speakerAbbr with
  | none => ln.timecode ++ " " ++ ln.text
  | some abbr => ln.timecode ++ " " ++ abbr ++ ": " ++ ln.text

/-- C9: a segment whose text begins with "(" renders as the timecode
followed by the italic text with no speaker abbreviation; any other segment
renders as timecode, the currently resolved abbreviation, a colon and the
text. -/
theorem renderSegment_rule (speakers : List SpeakerInfo) (candidates : List Candidate)
    (seg : TranscriptSegment) :
    (strStartsWith seg.text "(" = true →
      renderSegment speakers candidates seg =
        { timecode := seg.timecode, speakerAbbr := none, text := seg.text, italic := true } ∧
      renderLineText (renderSegment speakers candidates seg) =
        seg.timecode ++ " " ++ seg.text) ∧
    (strStartsWith seg.text "(" = false →
      renderSegment speakers candidates seg =
        { timecode := seg.timecode
          speakerAbbr := some (getSpeakerAbbr speakers candidates seg.tag_id)
          text := seg.text
          italic := false } ∧
      renderLineText (renderSegment speakers candidates seg) =
        seg.timecode ++ " " ++ getSpeakerAbbr speakers candidates seg.tag_id ++ ": " ++
          seg.text) := by
  constructor
  · intro h
    rw [renderSegment, if_pos h]
    exact ⟨rfl, rfl⟩
  · intro h
    rw [renderSegment, if_neg (by simp [h])]
    exact ⟨rfl, rfl⟩

/-- Witness for C9 at concrete segments: the technical remark of the sample
transcript and a spoken line, rendered against the sample dashboard state. -/
theorem renderSegment_rule_witness :
    (strStartsWith
        (⟨"15:40:41:00", "4", "(Технические моменты)"⟩ : TranscriptSegment).text "(" = true ∧
      renderSegment exSpeakers exCandidates ⟨"15:40:41:00", "4", "(Технические моменты)"⟩ =
        { timecode := "15:40:41:00", speakerAbbr := none,
          text := "(Технические моменты)", italic := true } ∧
      renderLineText
          (renderSegment exSpeakers exCandidates ⟨"15:40:41:00", "4", "(Технические моменты)"⟩) =
        "15:40:41:00" ++ " " ++ "(Технические моменты)") ∧
    (strStartsWith (⟨"15:40:58:00", "1", "Сегодня"⟩ : TranscriptSegment).text "(" = false ∧
      renderSegment exSpeakers exCandidates ⟨"15:40:58:00", "1", "Сегодня"⟩ =
        { timecode := "15:40:58:00",
          speakerAbbr := some (getSpeakerAbbr exSpeakers exCandidates "1"),
          text := "Сегодня", italic := false } ∧
      renderLineText (renderSegment exSpeakers exCandidates ⟨"15:40:58:00", "1", "Сегодня"⟩) =
        "15:40:58:00" ++ " " ++ getSpeakerAbbr exSpeakers exCandidates "1" ++ ": " ++
          "Сегодня") :=
  ⟨⟨by decide,
      (renderSegment_rule exSpeakers exCandidates
        ⟨"15:40:41:00", "4", "(Технические моменты)"⟩).1 (by decide)⟩,
    ⟨by decide,
      (renderSegment_rule exSpeakers exCandidates ⟨"15:40:58:00", "1", "Сегодня"⟩).2
        (by decide)⟩⟩

/-! Timecode assembly. -/

/-- Zero-padding of a field of the timecode to two digits. -/
def pad2 (n : ℕ) : String := if n < 10 then "0" ++ toString n else toString n

/-- Modelled from the spec: the Timecode Assembler lives in the Python
backend (`main.py`), which is absent from the frontend sources; the frontend
only displays the `timecode` strings it receives.  Per the specification,
the frame rate is fixed at 25 fps, `totalFrames = floor(offsetMs * 25 /
1000)` by truncation, and `totalFrames` is decomposed into `HH:MM:SS:FF` by
base-25/60/60 division with two-digit zero-padded fields. -/
def timecodeOf (offsetMs : ℕ) : String :=
  let totalFrames := offsetMs * 25 / 1000
  let ff := totalFrames % 25
  let totalSeconds := totalFrames / 25
  let ss := totalSeconds % 60
  let totalMinutes := totalSeconds / 60
  let mm := totalMinutes % 60
  let hh := totalMinutes / 60
  pad2 hh ++ ":" ++ pad2 mm ++ ":" ++ pad2 ss ++ ":" ++ pad2 ff

theorem pad2_length (n : ℕ) (h : n < 100) : (pad2 n).length = 2 := by
  revert h
  revert n
  decide

/-- C2: timecodes are computed at the fixed 25 fps by truncation and
decomposed into two-digit `HH:MM:SS:FF` with `FF` in `[00, 24]`; the frame
count recomposes from the fields, and the three sample offsets evaluate as
the specification states. -/
theorem timecode_spec :
    timecodeOf 0 = "00:00:00:00" ∧
    timecodeOf 1000 = "00:00:01:00" ∧
    timecodeOf 1040 = "00:00:01:01" ∧
    ∀ offsetMs : ℕ,
      ∃ hh mm ss ff : ℕ,
        timecodeOf offsetMs = pad2 hh ++ ":" ++ pad2 mm ++ ":" ++ pad2 ss ++ ":" ++ pad2 ff ∧
        ff ≤ 24 ∧ ss ≤ 59 ∧ mm ≤ 59 ∧
        hh * 90000 + mm * 1500 + ss * 25 + ff = offsetMs * 25 / 1000 ∧
        (pad2 mm).length = 2 ∧ (pad2 ss).length = 2 ∧ (pad2 ff).length = 2 := by
  refine ⟨by decide, by decide, by decide, ?_⟩
  intro offsetMs
  refine ⟨offsetMs * 25 / 1000 / 25 / 60 / 60, offsetMs * 25 / 1000 / 25 / 60 % 60,
    offsetMs * 25 / 1000 / 25 % 60, offsetMs * 25 / 1000 % 25, rfl, ?_, ?_, ?_, ?_, ?_, ?_, ?_⟩
  · omega
  · omega
  · omega
  · omega
  · exact pad2_length _ (by omega)
  · exact pad2_length _ (by omega)
  · exact pad2_length _ (by omega)

/-! Single-job polling: `pollStatus` of `services/api`. -/

/-- The fixed single-job poll interval `POLL_INTERVAL_MS` in `pollStatus`. -/
def POLL_INTERVAL_MS : ℕ := 2000

/-- What happens while the loop awaits the inter-poll promise: either the
`setTimeout` callback resolves it, or the abort listener fires. -/
inductive WaitEvent where
  | timerFires
  | abortFires
deriving DecidableEq, Repr

/-- The error channel of `pollStatus`: the `AbortError` `DOMException`, an
HTTP failure, or a server-reported processing error. -/
inductive PollErr where
  | abortError
  | httpError
  | serverError (msg : String)
deriving DecidableEq, Repr

/-- Outcome of awaiting the inter-poll promise, together with whether a
`setTimeout` callback is still scheduled afterwards.  The promise resolves
when the timer fires; the abort listener calls `clearTimeout` on the pending
timer and rejects with `AbortError`. -/
structure WaitOutcome where
  result : Except PollErr Unit
  timerPending : Bool
deriving Repr

/-- The `await new Promise(...)` between two polls in `pollStatus`. -/
def waitForNextPoll : WaitEvent → WaitOutcome
  | .timerFires => ⟨Except.ok (), false⟩
  | .abortFires => ⟨Except.error PollErr.abortError, false⟩

/-- The observable input of one iteration of the `while (true)` loop in
`pollStatus`: the abort flag already set at the top, a failed fetch, or a
status payload together with what ends the inter-poll wait. -/
inductive IterEvent where
  | abortedAtLoopTop
  | respNotOk
  | respStatus (status : String) (statusLabel : String) (progressPercent : Option ℕ)
      (errMsg : Option String) (wait : WaitEvent)
deriving DecidableEq, Repr

/-- Result of running the poll loop over a finite script of iteration
events: terminal outcome, or still polling when the script runs out. -/
inductive PollResult where
  | completed
  | failed (e : PollErr)
  | running
deriving DecidableEq, Repr

/-- The `pollStatus` loop of `services/api` over a script of iteration
events, returning the outcome and whether a poll timer callback is still
scheduled when the loop exits. -/
def pollStatusRun : List IterEvent → PollResult × Bool
  | [] => (PollResult.running, false)
  | e :: rest =>
    match e with
    | .abortedAtLoopTop => (PollResult.failed PollErr.abortError, false)
    | .respNotOk => (PollResult.failed PollErr.httpError, false)
    | .respStatus status _ _ errMsg wait =>
      if status = "error" then
        (PollResult.failed (PollErr.serverError (errMsg.getD "Ошибка обработки на сервере")),
          false)
      else if status = "completed" then
        (PollResult.completed, false)
      else
        match (waitForNextPoll wait).result with
        | Except.ok _ => pollStatusRun rest
        | Except.error err => (PollResult.failed err, (waitForNextPoll wait).timerPending)

/-- An iteration event that keeps the loop going: a non-terminal status
whose wait ends with the timer firing. -/
def isContinuingIter : IterEvent → Bool
  | .respStatus status _ _ _ .timerFires => !(status == "error") && !(status == "completed")
  | _ => false

/-- C8: whenever the abort signal fires while the loop waits between polls,
the pending timer is cleared and the loop terminates by rejecting with
`AbortError`; no poll callback remains scheduled afterwards.  The abort may
happen at any iteration: any number of ordinary polls may precede it. -/
theorem pollStatus_abort (pre rest : List IterEvent) (status statusLabel : String)
    (progressPercent : Option ℕ) (errMsg : Option String)
    (hpre : ∀ e ∈ pre, isContinuingIter e = true)
    (hs1 : status ≠ "error") (hs2 : status ≠ "completed") :
    pollStatusRun
        (pre ++ IterEvent.respStatus status statusLabel progressPercent errMsg
          WaitEvent.abortFires :: rest) =
      (PollResult.failed PollErr.abortError, false) := by
  induction pre with
  | nil =>
    rw [List.nil_append, pollStatusRun]
    rw [if_neg hs1, if_neg hs2]
    rfl
  | cons e pre ih =>
    have he : isContinuingIter e = true := hpre e (List.mem_cons_self e pre)
    match e with
    | .respStatus s sl pp em .timerFires =>
      simp only [isContinuingIter, Bool.and_eq_true, Bool.not_eq_true', beq_eq_false_iff_ne,
        ne_eq] at he
      rw [List.cons_append, pollStatusRun]
      rw [if_neg he.1, if_neg he.2]
      exact ih (fun x hx => hpre x (List.mem_cons_of_mem _ hx))
    | .respStatus s sl pp em .abortFires => simp [isContinuingIter] at he
    | .abortedAtLoopTop => simp [isContinuingIter] at he
    | .respNotOk => simp [isContinuingIter] at he

/-- Witness for C8: one ordinary poll iteration, then an abort during the
wait, with further script events that are never reached. -/
theorem pollStatus_abort_witness :
    (∀ e ∈ [IterEvent.respStatus "transcribing" "Распознавание речи..." (some 40) none
        WaitEvent.timerFires], isContinuingIter e = true) ∧
    "queued" ≠ "error" ∧ "queued" ≠ "completed" ∧
    pollStatusRun
        ([IterEvent.respStatus "transcribing" "Распознавание речи..." (some 40) none
            WaitEvent.timerFires] ++
          IterEvent.respStatus "queued" "В очереди" none none WaitEvent.abortFires ::
            [IterEvent.respNotOk]) =
      (PollResult.failed PollErr.abortError, false) :=
  ⟨by decide, by decide, by decide,
    pollStatus_abort
      [IterEvent.respStatus "transcribing" "Распознавание речи..." (some 40) none
        WaitEvent.timerFires]
      [IterEvent.respNotOk] "queued" "В очереди" none none (by decide) (by decide) (by decide)⟩

/-! Batch polling: the processing effect of `BatchProgress`. -/

/-- The fixed batch poll cadence: `setInterval(poll, 2000)` in
`BatchProgress`. -/
def BATCH_POLL_INTERVAL_MS : ℕ := 2000

/-- One file entry of the batch status payload (`BatchFileInfo`). -/
structure BatchFileInfo where
  id : String
  filename : String
  status : String
  status_label : String
  error : Option String
  progress_percent : Option ℕ
deriving DecidableEq, Repr

/-- The batch status payload (`BatchStatus`). -/
structure BatchStatusPayload where
  total : ℕ
  completed : ℕ
  errors : ℕ
  in_progress : ℕ
  files : List BatchFileInfo
deriving DecidableEq, Repr

/-- The component phase of `BatchProgress`. -/
inductive UploadState where
  | uploading
  | processing
  | done
deriving DecidableEq, Repr

/-- The state the polling effect of `BatchProgress` reads and writes. -/
structure BatchPollState where
  state : UploadState
  batchFiles : List BatchFileInfo
  completedCount : ℕ
  errorCount : ℕ
  pollTimerActive : Bool
deriving DecidableEq, Repr

/-- One invocation of `poll`: a failed `batchStatus` call is swallowed and
retried; a payload updates the file list and counters, and when
`in_progress` is `0` the component transitions to `done` and clears the
poll interval. -/
def batchPollStep (st : BatchPollState) : Option BatchStatusPayload → BatchPollState
  | none => st
  | some status =>
    let st' := { st with
      batchFiles := status.files
      completedCount := status.completed
      errorCount := status.errors }
    if status.in_progress = 0 then
      { st' with state := UploadState.done, pollTimerActive := false }
    else
      st'

/-- The polling effect over a finite script of responses: `poll` only runs
again while the interval timer is still installed. -/
def batchPollRun (st : BatchPollState) : List (Option BatchStatusPayload) → BatchPollState
  | [] => st
  | r :: rs => if st.pollTimerActive then batchPollRun (batchPollStep st r) rs else st

/-- The state of the polling effect right after `setInterval` is installed. -/
def initialBatchPollState : BatchPollState :=
  ⟨UploadState.processing, [], 0, 0, true⟩

/-- Whether a poll response reports that no file is still in progress. -/
def respDone : Option BatchStatusPayload → Bool
  | none => false
  | some status => status.in_progress == 0

theorem batchPollRun_inactive (st : BatchPollState) (rs : List (Option BatchStatusPayload))
    (h : st.pollTimerActive = false) : batchPollRun st rs = st := by
  cases rs with
  | nil => rfl
  | cons r rs => rw [batchPollRun, h]; rfl

/-- C7: the batch poll cadence equals the single-job cadence of 2000 ms,
and for every response script the poll interval stays installed exactly
until the first payload whose `in_progress` count is `0`, at which point it
is cleared. -/
theorem batch_polling_cadence_and_stop :
    BATCH_POLL_INTERVAL_MS = POLL_INTERVAL_MS ∧
    BATCH_POLL_INTERVAL_MS = 2000 ∧
    ∀ rs : List (Option BatchStatusPayload),
      (batchPollRun initialBatchPollState rs).pollTimerActive = !(rs.any respDone) := by
  refine ⟨rfl, rfl, ?_⟩
  have key : ∀ (rs : List (Option BatchStatusPayload)) (st : BatchPollState),
      st.pollTimerActive = true →
      (batchPollRun st rs).pollTimerActive = !(rs.any respDone) := by
    intro rs
    induction rs with
    | nil => intro st h; simpa using h
    | cons r rs ih =>
      intro st h
      rw [batchPollRun, h, if_pos rfl]
      by_cases hr : respDone r = true
      · have hstep : (batchPollStep st r).pollTimerActive = false := by
          cases r with
          | none => simp [respDone] at hr
          | some status =>
            have : status.in_progress = 0 := by simpa [respDone] using hr
            simp [batchPollStep, this]
        rw [batchPollRun_inactive _ _ hstep, hstep]
        simp [hr]
      · have hr' : respDone r = false := by simpa using hr
        have hstep : (batchPollStep st r).pollTimerActive = true := by
          cases r with
          | none => simpa [batchPollStep] using h
          | some status =>
            have : status.in_progress ≠ 0 := by simpa [respDone] using hr'
            simp [batchPollStep, this]
            exact h
        rw [ih _ hstep]
        simp [hr']
  exact fun rs => key rs initialBatchPollState rfl

end ABTGS
